import Mathlib

/-!
# pod_network_access: a verification development

A shallow embedding of `src/pod_network_access/main.go` (the node-local pod
network monitor) and proofs of the properties its specification states.

Conventions of the embedding:

* Go `uint8`/`uint16`/`uint32` values are natural numbers; truncation is written
  explicitly (`% 256`, `% 2 ^ 32`).
* Go `map[K]V` values are association lists without any ordering promise; the only
  operations the program uses are index assignment (`GoMap.set`) and lookup
  (`GoMap.get?`).
* Results of calls that leave the process (the Kubernetes list call, `AttachTCX`,
  the ring-buffer read, the environment) are inputs of the embedded functions.
* Log output of the event loop is kept (it is the program's observation stream);
  the informational log lines of the synchroniser carry no state and are left out.
-/

namespace PodNetworkAccess

/-! ## Go maps -/

/-- A Go `map[K]V`, kept as an association list with at most one useful entry per key. -/
abbrev GoMap (κ ν : Type) := List (κ × ν)

/-- Index assignment `m[k] = v`: overwrite the entry of `k` or add one. -/
def GoMap.set {κ ν : Type} [DecidableEq κ] : GoMap κ ν → κ → ν → GoMap κ ν
  | [], k, v => [(k, v)]
  | (k', v') :: rest, k, v =>
    if k' = k then (k, v) :: rest else (k', v') :: GoMap.set rest k v

/-- The two-valued lookup `v, ok := m[k]`. -/
def GoMap.get? {κ ν : Type} [DecidableEq κ] : GoMap κ ν → κ → Option ν
  | [], _ => none
  | (k', v') :: rest, k => if k' = k then some v' else GoMap.get? rest k

/-! ## Kubernetes pods as the synchroniser sees them -/

/-- The fields of `corev1.Pod` that `updateMonitoredPods` reads. -/
structure Pod where
  Name : String
  Phase : String
  PodIP : String
  deriving DecidableEq, Repr

/-- The constant `corev1.PodRunning`. -/
def PodRunning : String := "Running"

/-! ## Address parsing

`net.ParseIP`, `net.IP.To4` and `binary.LittleEndian.Uint32` belong to the Go standard
library (`net`, `net/netip`, `encoding/binary`); they are written out here as the library
defines them. The reader of IPv6 text is left as a parameter. -/

/-- Running state of the loop in `netip.parseIPv4Fields`. -/
structure V4Fields where
  val : Nat
  digLen : Nat
  pos : Nat
  fields : List Nat
  deriving DecidableEq, Repr

/-- The loop of `netip.parseIPv4Fields` over the characters still to read. `prev` is the
character read just before (`none` at index 0). -/
def parseIPv4Loop : List Char → Option Char → V4Fields → Option V4Fields
  | [], _, st => some st
  | c :: rest, prev, st =>
    if '0' ≤ c ∧ c ≤ '9' then
      if st.digLen = 1 ∧ st.val = 0 then none
      else
        let val := st.val * 10 + (c.toNat - '0'.toNat)
        if val > 255 then none
        else parseIPv4Loop rest (some c) { st with val := val, digLen := st.digLen + 1 }
    else if c = '.' then
      if prev = none ∨ rest = [] ∨ prev = some '.' then none
      else if st.pos = 3 then none
      else
        parseIPv4Loop rest (some c)
          { val := 0, digLen := 0, pos := st.pos + 1, fields := st.fields.set st.pos st.val }
    else none

/-- The function `netip.parseIPv4`: the four octets of a dotted-quad string. -/
def parseIPv4 (s : String) : Option (List Nat) :=
  match parseIPv4Loop s.toList none { val := 0, digLen := 0, pos := 0, fields := [0, 0, 0, 0] } with
  | none => none
  | some st => if st.pos < 3 then none else some (st.fields.set 3 st.val)

/-- The dispatch of `netip.ParseAddr`: the first `.`, `:` or `%` decides how the string is
read. The IPv6 reader is a parameter; it returns the 16 bytes of an address without zone. -/
def parseAddrLoop (parseIPv6 : String → Option (List Nat)) (s : String) :
    List Char → Option (List Nat)
  | [] => none
  | c :: rest =>
    if c = '.' then
      (parseIPv4 s).map (fun f => [0, 0, 0, 0, 0, 0, 0, 0, 0, 0, 255, 255] ++ f)
    else if c = ':' then parseIPv6 s
    else if c = '%' then none
    else parseAddrLoop parseIPv6 s rest

/-- The function `net.ParseIP`: the 16-byte form of the address, `none` for Go's `nil`. -/
def ParseIP (parseIPv6 : String → Option (List Nat)) (s : String) : Option (List Nat) :=
  parseAddrLoop parseIPv6 s s.toList

/-- The method `net.IP.To4`. -/
def To4 (ip : List Nat) : Option (List Nat) :=
  if ip.length = 4 then some ip
  else if ip.length = 16 ∧ (ip.take 10).all (fun b => b == 0) ∧ ip.getD 10 0 = 255
      ∧ ip.getD 11 0 = 255 then
    some ((ip.drop 12).take 4)
  else none

/-- The function `binary.LittleEndian.Uint32` on a slice of at least four bytes. -/
def littleEndianUint32 (b : List Nat) : Nat :=
  (b.getD 0 0 ||| (b.getD 1 0 <<< 8) ||| (b.getD 2 0 <<< 16) ||| (b.getD 3 0 <<< 24)) % 2 ^ 32

/-! ## The policy synchroniser -/

/-- Modelled from the spec: the enforcement table `objs.BlockedPods` is declared in the
eBPF program, which is not part of the Go sources. A write is an upsert and nothing is ever
deleted; a write that would add a new key to a table already holding `maxEntries` entries
fails and leaves the table as it was. -/
def Put (maxEntries : Nat) (t : GoMap Nat Nat) (k v : Nat) : Option (GoMap Nat Nat) :=
  if (GoMap.get? t k).isSome ∨ t.length < maxEntries then some (GoMap.set t k v) else none

/-- What the `for _, pod := range pods.Items` loop of `updateMonitoredPods` carries along:
the map under construction, the enforcement table, and the `Put` calls made so far as
`(key, value)` pairs in call order. -/
structure CycleState where
  newPods : GoMap String String
  blockedPods : GoMap Nat Nat
  writes : List (Nat × Nat)
  deriving DecidableEq, Repr

/-- One iteration of the loop of `updateMonitoredPods`. -/
def syncPod (parseIPv6 : String → Option (List Nat)) (maxEntries : Nat) (blockExternal : Bool)
    (st : CycleState) (pod : Pod) : CycleState :=
  if pod.Phase ≠ PodRunning ∨ pod.PodIP = "" then st
  else
    let st := { st with newPods := GoMap.set st.newPods pod.PodIP pod.Name }
    match ParseIP parseIPv6 pod.PodIP with
    | none => st
    | some ipAddr =>
      match To4 ipAddr with
      | none => st
      | some ipv4 =>
        let ipInt := littleEndianUint32 ipv4
        let blockFlag := if blockExternal then 1 else 0
        match Put maxEntries st.blockedPods ipInt blockFlag with
        | none => { st with writes := st.writes ++ [(ipInt, blockFlag)] }
        | some t => { st with blockedPods := t, writes := st.writes ++ [(ipInt, blockFlag)] }

/-- The process-wide state the synchroniser owns: the published map `monitoredPods` and the
enforcement table. -/
structure SyncState where
  monitoredPods : GoMap String String
  blockedPods : GoMap Nat Nat
  deriving DecidableEq, Repr

/-- The function `updateMonitoredPods`. `getenv` is `os.Getenv`, `listResult` what the pod
list call returned. The result is the state after the cycle and the table writes attempted
during it. -/
def updateMonitoredPods (parseIPv6 : String → Option (List Nat)) (maxEntries : Nat)
    (getenv : String → String) (listResult : Except String (List Pod)) (st : SyncState) :
    SyncState × List (Nat × Nat) :=
  match listResult with
  | .error _ => (st, [])
  | .ok pods =>
    let blockExternal := decide (getenv "BLOCK_EXTERNAL" = "true")
    let r := pods.foldl (syncPod parseIPv6 maxEntries blockExternal)
      { newPods := [], blockedPods := st.blockedPods, writes := [] }
    ({ monitoredPods := r.newPods, blockedPods := r.blockedPods }, r.writes)

/-! ## The pod selector

`strings.Split` and `strings.SplitN` belong to the Go standard library; the program calls
them with the one-character separators `,` and `=`. -/

/-- The function `strings.Index` for a one-character separator. -/
def indexOf (sep : Char) : List Char → Option Nat
  | [] => none
  | c :: rest => if c = sep then some 0 else (indexOf sep rest).map (· + 1)

/-- The loop of `strings.genSplit` for a one-character separator: at most `budget` cuts. -/
def genSplitLoop (sep : Char) : Nat → List Char → List (List Char)
  | 0, s => [s]
  | budget + 1, s =>
    match indexOf sep s with
    | none => [s]
    | some m => s.take m :: genSplitLoop sep budget (s.drop (m + 1))

/-- The function `strings.SplitN(s, sep, n)` for a one-character separator and `n > 0`. -/
def SplitN (s : List Char) (sep : Char) (n : Nat) : List (List Char) :=
  genSplitLoop sep (min n (s.length + 1) - 1) s

/-- The function `strings.Split(s, sep)` for a one-character separator. -/
def Split (s : List Char) (sep : Char) : List (List Char) :=
  genSplitLoop sep (min (s.count sep + 1) (s.length + 1) - 1) s

/-- The function `getPodSelector`; `getenv` is `os.Getenv`. -/
def getPodSelector (getenv : String → String) : GoMap String String :=
  let envSelector := getenv "POD_SELECTOR"
  if envSelector = "" then GoMap.set [] "monitor" "external"
  else
    (Split envSelector.toList ',').foldl
      (fun selector pair =>
        match SplitN pair '=' 2 with
        | [k, v] => GoMap.set selector (String.mk k) (String.mk v)
        | _ => selector)
      []

/-! ## The flow event pipeline -/

/-- The struct `NetworkEvent`. -/
structure NetworkEvent where
  Saddr : Nat
  Daddr : Nat
  Sport : Nat
  Dport : Nat
  Protocol : Nat
  Blocked : Nat
  FoundInMap : Nat
  BlockFlagValue : Nat
  SaddrLookup : Nat
  deriving DecidableEq, Repr

/-- The function `binary.LittleEndian.Uint16` on a slice of at least two bytes. -/
def littleEndianUint16 (b : List Nat) : Nat :=
  (b.getD 0 0 ||| (b.getD 1 0 <<< 8)) % 2 ^ 16

/-- The call `binary.Read(bytes.NewBuffer(raw), binary.LittleEndian, &event)`: the struct
takes 20 bytes, fields in declaration order without padding; a shorter sample is an error. -/
def decodeEvent (raw : List Nat) : Option NetworkEvent :=
  if raw.length < 20 then none
  else some
    { Saddr := littleEndianUint32 raw
      Daddr := littleEndianUint32 (raw.drop 4)
      Sport := littleEndianUint16 (raw.drop 8)
      Dport := littleEndianUint16 (raw.drop 10)
      Protocol := raw.getD 12 0 % 256
      Blocked := raw.getD 13 0 % 256
      FoundInMap := raw.getD 14 0 % 256
      BlockFlagValue := raw.getD 15 0 % 256
      SaddrLookup := littleEndianUint32 (raw.drop 16) }

/-- The function `intToIP`: `byte(ip)`, `byte(ip>>8)`, `byte(ip>>16)`, `byte(ip>>24)` printed
in decimal with dots between them. -/
def intToIP (ip : Nat) : String :=
  toString (ip % 256) ++ "." ++ toString ((ip >>> 8) % 256) ++ "." ++
    toString ((ip >>> 16) % 256) ++ "." ++ toString ((ip >>> 24) % 256)

/-- The function `protoName`. -/
def protoName (proto : Nat) : String :=
  if proto = 1 then "ICMP"
  else if proto = 6 then "TCP"
  else if proto = 17 then "UDP"
  else "proto-" ++ toString proto

/-- The verb `%08x` for a `uint32`: lower-case hexadecimal, zero-padded to eight digits. -/
def hex08 (n : Nat) : String :=
  let ds := Nat.toDigits 16 n
  String.mk (List.replicate (8 - ds.length) '0' ++ ds)

/-- One log line of the event loop, before formatting. -/
structure Observation where
  podName : String
  action : String
  srcIP : String
  dstIP : String
  proto : String
  ports : Option (Nat × Nat)
  debugInfo : String
  deriving DecidableEq, Repr

/-- What the event loop hands to `log.Printf`. -/
inductive LogEntry where
  | readError (err : String)
  | parseError (err : String)
  | observation (o : Observation)
  deriving DecidableEq, Repr

/-- The text `log.Printf` writes for an entry (after the logger's own time stamp). -/
def LogEntry.render : LogEntry → String
  | .readError err => "Reading from ringbuf: " ++ err
  | .parseError err => "Parsing event: " ++ err
  | .observation o =>
    match o.ports with
    | some (sport, dport) =>
      "[" ++ o.podName ++ "] " ++ o.action ++ ": " ++ o.srcIP ++ " -> " ++ o.dstIP ++ "  ["
        ++ o.proto ++ "] " ++ toString sport ++ " -> " ++ toString dport ++ " " ++ o.debugInfo
    | none =>
      "[" ++ o.podName ++ "] " ++ o.action ++ ": " ++ o.srcIP ++ " -> " ++ o.dstIP ++ "  ["
        ++ o.proto ++ "] " ++ o.debugInfo

/-- The body of the event loop from the decoded event on: the lookup in `monitoredPods` and
the log line, `[]` when the source address is not monitored. -/
def handleEvent (monitoredPods : GoMap String String) (event : NetworkEvent) : List LogEntry :=
  let srcIP := intToIP event.Saddr
  let dstIP := intToIP event.Daddr
  match GoMap.get? monitoredPods srcIP with
  | none => []
  | some podName =>
    let proto := protoName event.Protocol
    let action := if event.Blocked = 1 then "BLOCKED" else "ALLOWED"
    let debugInfo := "[map_lookup=" ++ toString (decide (event.FoundInMap = 1)) ++ ", flag="
      ++ toString event.BlockFlagValue ++ ", lookup_ip=0x" ++ hex08 event.SaddrLookup ++ "]"
    [LogEntry.observation
      { podName := podName, action := action, srcIP := srcIP, dstIP := dstIP, proto := proto,
        ports := if event.Sport > 0 ∧ event.Dport > 0 then some (event.Sport, event.Dport)
          else none,
        debugInfo := debugInfo }]

/-- What one call of `rd.Read()` returns. -/
inductive ReadResult where
  | closed
  | failed (err : String)
  | record (rawSample : List Nat)
  deriving DecidableEq, Repr

/-- The event loop of `main` run over the results of successive `rd.Read()` calls, each
paired with the value of `monitoredPods` at the time of its lookup. The result is the log. -/
def eventLoop : List (ReadResult × GoMap String String) → List LogEntry
  | [] => []
  | (.closed, _) :: _ => []
  | (.failed err, _) :: rest => LogEntry.readError err :: eventLoop rest
  | (.record rawSample, monitoredPods) :: rest =>
    match decodeEvent rawSample with
    | none =>
      LogEntry.parseError (if rawSample = [] then "EOF" else "unexpected EOF") :: eventLoop rest
    | some event => handleEvent monitoredPods event ++ eventLoop rest

/-! ## Start-up and attachment -/

/-- The parts of a `netlink.Link` that `main` reads: `Type()`, `Attrs().Name` and
`Attrs().Index`. -/
structure NetLink where
  LinkType : String
  Name : String
  Index : Nat
  deriving DecidableEq, Repr

/-- Outcomes of the calls `main` makes before the pod monitor is started. A handle returned
by `AttachTCX` is a number. -/
structure StartupCalls where
  removeMemlock : Except String Unit
  loadObjects : Except String Unit
  linkList : Except String (List NetLink)
  attachTCX : NetLink → Except String Nat
  inClusterConfig : Except String Unit
  newForConfig : Except String Unit

/-- The attachment loop of `main`: the handles kept in `tcLinks` and the counter `attached`. -/
def attachLoop (attachTCX : NetLink → Except String Nat) :
    List NetLink → List Nat × Nat → List Nat × Nat
  | [], acc => acc
  | iface :: rest, (tcLinks, attached) =>
    if iface.LinkType ≠ "veth" then attachLoop attachTCX rest (tcLinks, attached)
    else
      match attachTCX iface with
      | .error _ => attachLoop attachTCX rest (tcLinks, attached)
      | .ok l => attachLoop attachTCX rest (tcLinks ++ [l], attached + 1)

/-- The `log.Fatal` calls `main` can make before the pod monitor is started, each with the
error it reports. -/
inductive FatalError where
  | removingMemlock (err : String)
  | loadingObjects (err : String)
  | listingLinks (err : String)
  | noVethAttached
  | inClusterConfig (err : String)
  | creatingClient (err : String)
  deriving DecidableEq, Repr

/-- The text `log.Fatal` prints. -/
def FatalError.render : FatalError → String
  | .removingMemlock err => "Removing memlock:" ++ err
  | .loadingObjects err => "Loading eBPF objects:" ++ err
  | .listingLinks err => "Listing links:" ++ err
  | .noVethAttached => "No veth interfaces found or all attachments failed"
  | .inClusterConfig err => "Getting in-cluster config:" ++ err
  | .creatingClient err => "Creating Kubernetes client:" ++ err

/-- How the start of `main` ends: in `log.Fatal`, or with the pod monitor started, the
handles in `tcLinks` and the count `attached` that was logged. -/
inductive Startup where
  | fatal (e : FatalError)
  | monitorStarted (tcLinks : List Nat) (attached : Nat)
  deriving DecidableEq, Repr

/-- The function `main` up to the statement `go monitorPods(...)`. -/
def startup (calls : StartupCalls) : Startup :=
  match calls.removeMemlock with
  | .error err => .fatal (.removingMemlock err)
  | .ok _ =>
    match calls.loadObjects with
    | .error err => .fatal (.loadingObjects err)
    | .ok _ =>
      match calls.linkList with
      | .error err => .fatal (.listingLinks err)
      | .ok links =>
        match attachLoop calls.attachTCX links ([], 0) with
        | (tcLinks, attached) =>
          if attached = 0 then .fatal .noVethAttached
          else
            match calls.inClusterConfig with
            | .error err => .fatal (.inClusterConfig err)
            | .ok _ =>
              match calls.newForConfig with
              | .error err => .fatal (.creatingClient err)
              | .ok _ => .monitorStarted tcLinks attached

/-! ## Auxiliary definitions for the statements and proofs -/

/-- The digit part of one step of `parseIPv4Loop`, on the pair `(val, digLen)`. -/
def digitStep (st : Nat × Nat) (c : Char) : Option (Nat × Nat) :=
  if st.2 = 1 ∧ st.1 = 0 then none
  else if st.1 * 10 + (c.toNat - '0'.toNat) > 255 then none
  else some (st.1 * 10 + (c.toNat - '0'.toNat), st.2 + 1)

/-- The character read last after reading `ds`, starting from `prev`. -/
def lastRead (prev : Option Char) (ds : List Char) : Option Char :=
  ds.foldl (fun _ c => some c) prev

/-- The facts about the decimal text of one octet that the parser relies on. -/
def octetOk (a : Nat) : Bool :=
  let ds := (toString a).toList
  ds.all (fun c => decide ('0' ≤ c ∧ c ≤ '9')) && decide (ds ≠ []) &&
    decide (ds.foldlM digitStep (0, 0) = some (a, ds.length))

/-- The decimal dotted-quad text `a.b.c.d`. -/
def dottedQuad (a b c d : Nat) : String :=
  toString a ++ "." ++ toString b ++ "." ++ toString c ++ "." ++ toString d

/-- The `Put` call one loop iteration makes for a pod, if it makes one. -/
def cycleWrite (parseIPv6 : String → Option (List Nat)) (blockExternal : Bool) (pod : Pod) :
    Option (Nat × Nat) :=
  if pod.Phase ≠ PodRunning ∨ pod.PodIP = "" then none
  else ((ParseIP parseIPv6 pod.PodIP).bind To4).map
    (fun ipv4 => (littleEndianUint32 ipv4, if blockExternal then 1 else 0))

/-- The enforcement table after one `Put` call, failed or not. -/
def applyWrite (maxEntries : Nat) (t : GoMap Nat Nat) (w : Nat × Nat) : GoMap Nat Nat :=
  (Put maxEntries t w.1 w.2).getD t

/-- A key whose write of value `f` changes nothing any more: it holds `f` already, or it is
absent from a full table. -/
def Settled (maxEntries f : Nat) (t : GoMap Nat Nat) (k : Nat) : Prop :=
  GoMap.get? t k = some f ∨ (GoMap.get? t k = none ∧ maxEntries ≤ t.length)

/-- The handles `AttachTCX` returns for the interfaces of type `veth`, in list order, failed
attachments left out. -/
def vethHandles (attachTCX : NetLink → Except String Nat) (links : List NetLink) : List Nat :=
  (links.filter (fun iface => decide (iface.LinkType = "veth"))).filterMap
    (fun iface => (attachTCX iface).toOption)

/-- Whether an interface is of type `veth` and its attachment succeeds. -/
def vethAttaches (attachTCX : NetLink → Except String Nat) (iface : NetLink) : Bool :=
  decide (iface.LinkType = "veth") && (attachTCX iface).toBool

/-- Following the words of the specification: a segment holding at least one `=` binds the
text before its first `=` to the text after it; a segment without `=` binds nothing. -/
def segmentBinding (seg : List Char) : Option (String × String) :=
  if '=' ∈ seg then
    some (String.mk (seg.takeWhile (fun c => c != '=')),
      String.mk ((seg.dropWhile (fun c => c != '=')).drop 1))
  else none

/-- An IPv6 reader that knows the one address `fd00::1` (used in examples). -/
def parseIPv6Example (s : String) : Option (List Nat) :=
  if s = "fd00::1" then some [253, 0, 0, 0, 0, 0, 0, 0, 0, 0, 0, 0, 0, 0, 0, 1] else none

/-- An environment in which `BLOCK_EXTERNAL` is `true` and nothing else is set. -/
def blockingEnv (name : String) : String :=
  if name = "BLOCK_EXTERNAL" then "true" else ""

/-- Start-up calls that all succeed except `rest.InClusterConfig`; the host has the one
interface `veth0` with index 3, and a handle is the interface index. -/
def outsideClusterCalls : StartupCalls :=
  { removeMemlock := .ok ()
    loadObjects := .ok ()
    linkList := .ok [⟨"veth", "veth0", 3⟩]
    attachTCX := fun iface => .ok iface.Index
    inClusterConfig := .error "not in cluster"
    newForConfig := .ok () }

/-- Start-up calls that all succeed except the attachment to `veth0`; the host has the
interfaces `veth0`, `br0` and `veth1`, and a handle is the interface index. -/
def oneAttachFailsCalls : StartupCalls :=
  { removeMemlock := .ok ()
    loadObjects := .ok ()
    linkList := .ok [⟨"veth", "veth0", 3⟩, ⟨"bridge", "br0", 4⟩, ⟨"veth", "veth1", 5⟩]
    attachTCX := fun iface => if iface.Index = 3 then .error "busy" else .ok iface.Index
    inClusterConfig := .ok ()
    newForConfig := .ok () }

/-! ## Lemmas on Go maps -/

theorem GoMap.get?_set {κ ν : Type} [DecidableEq κ] (m : GoMap κ ν) (k k' : κ) (v : ν) :
    GoMap.get? (GoMap.set m k v) k' = if k = k' then some v else GoMap.get? m k' := by
  induction m with
  | nil => simp [GoMap.set, GoMap.get?]
  | cons e rest ih =>
    obtain ⟨k0, v0⟩ := e
    by_cases h0 : k0 = k
    · subst h0
      by_cases h1 : k0 = k' <;> simp [GoMap.set, GoMap.get?, h1]
    · by_cases h1 : k0 = k'
      · subst h1
        have : ¬ k = k0 := fun h => h0 h.symm
        simp [GoMap.set, GoMap.get?, h0, this]
      · simp [GoMap.set, GoMap.get?, h0, h1, ih]

theorem getLast?_filter_concat {α : Type} (q : α → Bool) (l : List α) (a : α) :
    ((l ++ [a]).filter q).getLast? = if q a = true then some a else (l.filter q).getLast? := by
  rw [List.filter_append]
  by_cases h : q a = true
  · rw [if_pos h, List.filter_cons_of_pos h, List.filter_nil, List.getLast?_append]
    rfl
  · rw [if_neg h, List.filter_cons_of_neg h, List.filter_nil, List.append_nil]

/-! ## Lemmas on the synchroniser -/

theorem syncPod_newPods (parseIPv6 : String → Option (List Nat)) (maxEntries : Nat)
    (blockExternal : Bool) (st : CycleState) (pod : Pod) :
    (syncPod parseIPv6 maxEntries blockExternal st pod).newPods =
      if pod.Phase ≠ PodRunning ∨ pod.PodIP = "" then st.newPods
      else GoMap.set st.newPods pod.PodIP pod.Name := by
  unfold syncPod
  split
  · rfl
  · dsimp only
    split
    · rfl
    · split
      · rfl
      · split <;> rfl

theorem foldl_syncPod_get?_of (parseIPv6 : String → Option (List Nat)) (maxEntries : Nat)
    (blockExternal : Bool) (st : CycleState) (pods : List Pod) (A : String) (q : Pod → Bool)
    (hq : ∀ p, q p = true ↔ (p.Phase = PodRunning ∧ p.PodIP ≠ "" ∧ p.PodIP = A)) :
    GoMap.get? (pods.foldl (syncPod parseIPv6 maxEntries blockExternal) st).newPods A =
      match (pods.filter q).getLast? with
      | some p => some p.Name
      | none => GoMap.get? st.newPods A := by
  induction pods using List.reverseRecOn with
  | nil => simp
  | append_singleton ps p ih =>
    rw [List.foldl_append, getLast?_filter_concat]
    simp only [List.foldl_cons, List.foldl_nil, syncPod_newPods]
    by_cases hinc : p.Phase ≠ PodRunning ∨ p.PodIP = ""
    · have hf : ¬ q p = true := by
        rw [hq]
        rintro ⟨h1, h2, -⟩
        rcases hinc with h | h
        · exact h h1
        · exact h2 h
      rw [if_pos hinc, ih, if_neg hf]
    · rw [if_neg hinc, GoMap.get?_set]
      have hinc2 : p.Phase = PodRunning ∧ p.PodIP ≠ "" := by
        constructor
        · by_contra h; exact hinc (Or.inl h)
        · intro h; exact hinc (Or.inr h)
      by_cases hA : p.PodIP = A
      · have hf : q p = true := (hq p).2 ⟨hinc2.1, hinc2.2, hA⟩
        rw [if_pos hA, if_pos hf]
      · have hf : ¬ q p = true := fun h => hA ((hq p).1 h).2.2
        rw [if_neg hA, ih, if_neg hf]

theorem monitoredPods_get? (parseIPv6 : String → Option (List Nat)) (maxEntries : Nat)
    (getenv : String → String) (pods : List Pod) (st : SyncState) (A : String) :
    GoMap.get? (updateMonitoredPods parseIPv6 maxEntries getenv (.ok pods) st).1.monitoredPods A
      = match (pods.filter
          (fun p => decide (p.Phase = PodRunning ∧ p.PodIP ≠ "" ∧ p.PodIP = A))).getLast? with
        | some p => some p.Name
        | none => none := by
  simp only [updateMonitoredPods]
  rw [foldl_syncPod_get?_of _ _ _ _ _ A
    (fun p => decide (p.Phase = PodRunning ∧ p.PodIP ≠ "" ∧ p.PodIP = A)) (fun p => by simp)]
  rfl

/-- C1: after a cycle whose pod query succeeded, looking an address `A` up in the published
map gives the name of the last pod of the list that is Running and has the non-empty address
`A`, and gives nothing when the list has no such pod. -/
theorem updateMonitoredPods_snapshot (parseIPv6 : String → Option (List Nat))
    (maxEntries : Nat) (getenv : String → String) (pods : List Pod) (st : SyncState)
    (A : String) :
    GoMap.get? (updateMonitoredPods parseIPv6 maxEntries getenv (.ok pods) st).1.monitoredPods A
      = ((pods.filter
          (fun p => decide (p.Phase = PodRunning ∧ p.PodIP ≠ "" ∧ p.PodIP = A))).getLast?).map
            (fun p => p.Name) := by
  rw [monitoredPods_get?]
  cases (pods.filter
    (fun p => decide (p.Phase = PodRunning ∧ p.PodIP ≠ "" ∧ p.PodIP = A))).getLast? <;>
    simp [GoMap.get?]

/-! ## Dotted-quad text and its parsing -/

set_option maxRecDepth 100000 in
theorem octetOk_all : ∀ a, a < 256 → octetOk a = true := by decide

theorem octet_digits (a : Nat) (h : a < 256) :
    (∀ c ∈ (toString a).toList, '0' ≤ c ∧ c ≤ '9') ∧ (toString a).toList ≠ [] ∧
      (toString a).toList.foldlM digitStep (0, 0) = some (a, (toString a).toList.length) := by
  have := octetOk_all a h
  simp only [octetOk, Bool.and_eq_true, List.all_eq_true, decide_eq_true_eq] at this
  exact ⟨this.1.1, this.1.2, this.2⟩

theorem parseIPv4Loop_digits (ds : List Char) (hds : ∀ c ∈ ds, '0' ≤ c ∧ c ≤ '9')
    (rest : List Char) (prev : Option Char) (st : V4Fields) :
    parseIPv4Loop (ds ++ rest) prev st =
      match ds.foldlM digitStep (st.val, st.digLen) with
      | none => none
      | some r => parseIPv4Loop rest (lastRead prev ds) { st with val := r.1, digLen := r.2 } := by
  induction ds generalizing prev st with
  | nil => simp [lastRead]
  | cons c ds ih =>
    have hc := hds c (List.mem_cons_self _ _)
    have hds2 : ∀ c ∈ ds, '0' ≤ c ∧ c ≤ '9' := fun x hx => hds x (List.mem_cons_of_mem _ hx)
    rw [List.cons_append, parseIPv4Loop, if_pos hc, List.foldlM_cons]
    by_cases h1 : st.digLen = 1 ∧ st.val = 0
    · simp [digitStep, h1]
    · by_cases h2 : 255 < st.val * 10 + (c.toNat - 48)
      · simp [digitStep, h1, h2]
      · simp [digitStep, h1, h2, lastRead, ih hds2]

theorem lastRead_digit (prev : Option Char) (ds : List Char)
    (hds : ∀ c ∈ ds, '0' ≤ c ∧ c ≤ '9') (hne : ds ≠ []) :
    lastRead prev ds ≠ none ∧ lastRead prev ds ≠ some '.' := by
  induction ds generalizing prev with
  | nil => exact absurd rfl hne
  | cons c ds ih =>
    have hc := hds c (List.mem_cons_self _ _)
    by_cases hnil : ds = []
    · subst hnil
      simp only [lastRead, List.foldl_cons, List.foldl_nil]
      refine ⟨by simp, ?_⟩
      intro h
      have : c = '.' := Option.some.inj h
      subst this
      exact absurd hc (by decide)
    · have := ih (some c) (fun x hx => hds x (List.mem_cons_of_mem _ hx)) hnil
      simpa [lastRead] using this

theorem parseIPv4Loop_octet_dot (a : Nat) (h : a < 256) (rest : List Char) (hrest : rest ≠ [])
    (prev : Option Char) (pos : Nat) (fields : List Nat) (hpos : pos ≠ 3) :
    parseIPv4Loop ((toString a).toList ++ '.' :: rest) prev
        { val := 0, digLen := 0, pos := pos, fields := fields } =
      parseIPv4Loop rest (some '.')
        { val := 0, digLen := 0, pos := pos + 1, fields := fields.set pos a } := by
  obtain ⟨hd, hne, hfold⟩ := octet_digits a h
  rw [parseIPv4Loop_digits _ hd]
  simp only [hfold]
  obtain ⟨hl1, hl2⟩ := lastRead_digit prev _ hd hne
  rw [parseIPv4Loop, if_neg (by decide), if_pos rfl, if_neg (by rintro (h | h | h); exacts [hl1 h, hrest h, hl2 h]),
    if_neg hpos]

theorem parseIPv4Loop_octet_end (a : Nat) (h : a < 256) (prev : Option Char) (pos : Nat)
    (fields : List Nat) :
    parseIPv4Loop (toString a).toList prev
        { val := 0, digLen := 0, pos := pos, fields := fields } =
      some { val := a, digLen := (toString a).toList.length, pos := pos, fields := fields } := by
  obtain ⟨hd, -, hfold⟩ := octet_digits a h
  have := parseIPv4Loop_digits _ hd [] prev { val := 0, digLen := 0, pos := pos, fields := fields }
  rw [List.append_nil] at this
  rw [this]
  simp only [hfold]
  rw [parseIPv4Loop]

theorem dottedQuad_toList (a b c d : Nat) :
    (dottedQuad a b c d).toList =
      (toString a).toList ++ '.' :: ((toString b).toList ++ '.' ::
        ((toString c).toList ++ '.' :: (toString d).toList)) := by
  simp [dottedQuad, String.toList, String.data_append]

theorem parseIPv4_dottedQuad (a b c d : Nat) (ha : a < 256) (hb : b < 256) (hc : c < 256)
    (hd : d < 256) : parseIPv4 (dottedQuad a b c d) = some [a, b, c, d] := by
  have hne : ∀ x, x < 256 → ∀ r : List Char, (toString x).toList ++ r ≠ [] := by
    intro x hx r hr
    exact (octet_digits x hx).2.1 (List.append_eq_nil.1 hr).1
  rw [parseIPv4, dottedQuad_toList,
    parseIPv4Loop_octet_dot a ha _ (hne b hb _) none 0 _ (by decide),
    parseIPv4Loop_octet_dot b hb _ (hne c hc _) _ 1 _ (by decide),
    parseIPv4Loop_octet_dot c hc _ (by simpa using hne d hd []) _ 2 _ (by decide),
    parseIPv4Loop_octet_end d hd]
  simp

theorem parseAddrLoop_digits (parseIPv6 : String → Option (List Nat)) (s : String)
    (ds : List Char) (hds : ∀ c ∈ ds, '0' ≤ c ∧ c ≤ '9') (rest : List Char) :
    parseAddrLoop parseIPv6 s (ds ++ '.' :: rest) =
      (parseIPv4 s).map (fun f => [0, 0, 0, 0, 0, 0, 0, 0, 0, 0, 255, 255] ++ f) := by
  induction ds with
  | nil => simp [parseAddrLoop]
  | cons c ds ih =>
    have hc := hds c (List.mem_cons_self _ _)
    have h1 : c ≠ '.' := by rintro rfl; exact absurd hc (by decide)
    have h2 : c ≠ ':' := by rintro rfl; exact absurd hc (by decide)
    have h3 : c ≠ '%' := by rintro rfl; exact absurd hc (by decide)
    rw [List.cons_append, parseAddrLoop, if_neg h1, if_neg h2, if_neg h3,
      ih (fun x hx => hds x (List.mem_cons_of_mem _ hx))]

theorem ParseIP_To4_dottedQuad (parseIPv6 : String → Option (List Nat)) (a b c d : Nat)
    (ha : a < 256) (hb : b < 256) (hc : c < 256) (hd : d < 256) :
    (ParseIP parseIPv6 (dottedQuad a b c d)).bind To4 = some [a, b, c, d] := by
  rw [ParseIP, dottedQuad_toList, parseAddrLoop_digits _ _ _ (octet_digits a ha).1,
    parseIPv4_dottedQuad a b c d ha hb hc hd]
  simp [To4]

theorem lor_shiftLeft_eq (x c i : Nat) (h : x < 2 ^ i) : x ||| (c <<< i) = 2 ^ i * c + x := by
  rw [Nat.shiftLeft_eq, Nat.lor_comm, Nat.mul_comm]
  exact (Nat.mul_add_lt_is_or h c).symm

theorem littleEndianUint32_eq (a b c d : Nat) (ha : a < 256) (hb : b < 256) (hc : c < 256)
    (hd : d < 256) (rest : List Nat) :
    littleEndianUint32 (a :: b :: c :: d :: rest) = a + b * 2 ^ 8 + c * 2 ^ 16 + d * 2 ^ 24 := by
  simp only [littleEndianUint32, List.getD_cons_zero, List.getD_cons_succ]
  rw [lor_shiftLeft_eq a b 8 (by omega), lor_shiftLeft_eq _ c 16 (by omega),
    lor_shiftLeft_eq _ d 24 (by omega)]
  omega

/-! ## The cycle as a function of the pod list -/

theorem syncPod_eq (parseIPv6 : String → Option (List Nat)) (maxEntries : Nat)
    (blockExternal : Bool) (st : CycleState) (pod : Pod) :
    syncPod parseIPv6 maxEntries blockExternal st pod =
      { newPods := if pod.Phase ≠ PodRunning ∨ pod.PodIP = "" then st.newPods
          else GoMap.set st.newPods pod.PodIP pod.Name
        blockedPods := (cycleWrite parseIPv6 blockExternal pod).toList.foldl
          (applyWrite maxEntries) st.blockedPods
        writes := st.writes ++ (cycleWrite parseIPv6 blockExternal pod).toList } := by
  unfold syncPod cycleWrite
  by_cases hinc : pod.Phase ≠ PodRunning ∨ pod.PodIP = ""
  · simp only [if_pos hinc]
    simp
  · simp only [if_neg hinc]
    cases hp : ParseIP parseIPv6 pod.PodIP with
    | none => simp
    | some ipAddr =>
      cases h4 : To4 ipAddr with
      | none => simp [h4]
      | some ipv4 =>
        cases hput : Put maxEntries st.blockedPods (littleEndianUint32 ipv4)
            (if blockExternal then 1 else 0) with
        | none => simp [h4, hput, applyWrite]
        | some t => simp [h4, hput, applyWrite]

theorem foldl_syncPod_eq (parseIPv6 : String → Option (List Nat)) (maxEntries : Nat)
    (blockExternal : Bool) (pods : List Pod) (st : CycleState) :
    pods.foldl (syncPod parseIPv6 maxEntries blockExternal) st =
      { newPods := (pods.foldl (syncPod parseIPv6 maxEntries blockExternal) st).newPods
        blockedPods := (pods.filterMap (cycleWrite parseIPv6 blockExternal)).foldl
          (applyWrite maxEntries) st.blockedPods
        writes := st.writes ++ pods.filterMap (cycleWrite parseIPv6 blockExternal) } := by
  induction pods generalizing st with
  | nil => simp
  | cons p ps ih =>
    rw [List.foldl_cons, ih]
    cases hw : cycleWrite parseIPv6 blockExternal p <;>
      simp [syncPod_eq, hw, List.filterMap_cons]

theorem foldl_syncPod_newPods_congr (parseIPv6 : String → Option (List Nat))
    (maxEntries : Nat) (blockExternal : Bool) (pods : List Pod) (st st' : CycleState)
    (h : st.newPods = st'.newPods) :
    (pods.foldl (syncPod parseIPv6 maxEntries blockExternal) st).newPods =
      (pods.foldl (syncPod parseIPv6 maxEntries blockExternal) st').newPods := by
  induction pods generalizing st st' with
  | nil => simpa using h
  | cons p ps ih =>
    rw [List.foldl_cons, List.foldl_cons]
    apply ih
    rw [syncPod_newPods, syncPod_newPods, h]

theorem updateMonitoredPods_ok (parseIPv6 : String → Option (List Nat)) (maxEntries : Nat)
    (getenv : String → String) (pods : List Pod) (st : SyncState) :
    updateMonitoredPods parseIPv6 maxEntries getenv (.ok pods) st =
      ({ monitoredPods := (pods.foldl
            (syncPod parseIPv6 maxEntries (decide (getenv "BLOCK_EXTERNAL" = "true")))
            { newPods := [], blockedPods := [], writes := [] }).newPods
         blockedPods := (pods.filterMap
            (cycleWrite parseIPv6 (decide (getenv "BLOCK_EXTERNAL" = "true")))).foldl
            (applyWrite maxEntries) st.blockedPods },
        pods.filterMap (cycleWrite parseIPv6 (decide (getenv "BLOCK_EXTERNAL" = "true")))) := by
  simp only [updateMonitoredPods]
  rw [foldl_syncPod_eq]
  simp only [List.nil_append]
  rw [foldl_syncPod_newPods_congr _ _ _ pods
    { newPods := [], blockedPods := st.blockedPods, writes := [] }
    { newPods := [], blockedPods := [], writes := [] } rfl]

theorem cycleWrite_dottedQuad (parseIPv6 : String → Option (List Nat)) (blockExternal : Bool)
    (pod : Pod) (a b c d : Nat) (ha : a < 256) (hb : b < 256) (hc : c < 256) (hd : d < 256)
    (hrun : pod.Phase = PodRunning) (hip : pod.PodIP = dottedQuad a b c d) :
    cycleWrite parseIPv6 blockExternal pod =
      some (a + b * 2 ^ 8 + c * 2 ^ 16 + d * 2 ^ 24, if blockExternal then 1 else 0) := by
  have hne : pod.PodIP ≠ "" := by
    rw [hip]
    intro h
    have := congrArg String.toList h
    rw [dottedQuad_toList] at this
    exact (octet_digits a ha).2.1 (List.append_eq_nil.1 this).1
  have hinc : ¬ (pod.Phase ≠ PodRunning ∨ pod.PodIP = "") := by
    rintro (h | h)
    · exact h hrun
    · exact hne h
  rw [cycleWrite, if_neg hinc, hip, ParseIP_To4_dottedQuad _ a b c d ha hb hc hd]
  simp [littleEndianUint32_eq a b c d ha hb hc hd]

/-- C2: in a cycle whose query succeeded and in which every Running pod with a non-empty
address has the dotted-quad address `a.b.c.d` (octets below 256, plain decimal), the `Put`
calls made are, in list order, exactly one per Running pod with a non-empty address, with
key `a + b*2^8 + c*2^16 + d*2^24` and value 1 when `BLOCK_EXTERNAL` is `true`, else 0. -/
theorem updateMonitoredPods_writes (parseIPv6 : String → Option (List Nat)) (maxEntries : Nat)
    (getenv : String → String) (pods : List Pod) (st : SyncState) (a b c d : Pod → Nat)
    (hquad : ∀ p ∈ pods, p.Phase = PodRunning → p.PodIP ≠ "" →
      a p < 256 ∧ b p < 256 ∧ c p < 256 ∧ d p < 256 ∧
        p.PodIP = dottedQuad (a p) (b p) (c p) (d p)) :
    (updateMonitoredPods parseIPv6 maxEntries getenv (.ok pods) st).2 =
      (pods.filter (fun p => decide (p.Phase = PodRunning ∧ p.PodIP ≠ ""))).map
        (fun p => (a p + b p * 2 ^ 8 + c p * 2 ^ 16 + d p * 2 ^ 24,
          if getenv "BLOCK_EXTERNAL" = "true" then 1 else 0)) := by
  rw [updateMonitoredPods_ok]
  simp only
  induction pods with
  | nil => rfl
  | cons p ps ih =>
    have ih2 := ih (fun q hq => hquad q (List.mem_cons_of_mem _ hq))
    by_cases hinc : p.Phase = PodRunning ∧ p.PodIP ≠ ""
    · obtain ⟨ha, hb, hc, hd, hip⟩ := hquad p (List.mem_cons_self _ _) hinc.1 hinc.2
      rw [List.filterMap_cons,
        cycleWrite_dottedQuad _ _ p _ _ _ _ ha hb hc hd hinc.1 hip, ih2,
        List.filter_cons_of_pos (by simpa using hinc), List.map_cons]
      simp
    · have hw : cycleWrite parseIPv6 (decide (getenv "BLOCK_EXTERNAL" = "true")) p = none := by
        rw [cycleWrite, if_pos]
        by_contra h
        apply hinc
        constructor
        · by_contra h1; exact h (Or.inl h1)
        · intro h1; exact h (Or.inr h1)
      rw [List.filterMap_cons, hw, ih2, List.filter_cons_of_neg (by simpa using hinc)]

/-- C2 (witness): the scenario of the specification, one Running pod `web-1` at `10.0.0.5`
with `BLOCK_EXTERNAL=true`: one write, key `10 + 5*2^24`, value 1. -/
theorem updateMonitoredPods_writes_witness :
    (updateMonitoredPods parseIPv6Example 1024 blockingEnv
        (.ok [⟨"web-1", "Running", "10.0.0.5"⟩]) ⟨[], []⟩).2 =
      [(10 + 0 * 2 ^ 8 + 0 * 2 ^ 16 + 5 * 2 ^ 24, 1)] := by
  have h := updateMonitoredPods_writes parseIPv6Example 1024 blockingEnv
    [⟨"web-1", "Running", "10.0.0.5"⟩] ⟨[], []⟩ (fun _ => 10) (fun _ => 0) (fun _ => 0)
    (fun _ => 5)
    (by
      intro p hp _ _
      rw [List.mem_singleton] at hp
      subst hp
      exact ⟨by decide, by decide, by decide, by decide, by decide⟩)
  rw [h]
  decide

/-! ## Repeating a cycle -/

theorem GoMap.set_of_get? {κ ν : Type} [DecidableEq κ] (m : GoMap κ ν) (k : κ) (v : ν)
    (h : GoMap.get? m k = some v) : GoMap.set m k v = m := by
  induction m with
  | nil => simp [GoMap.get?] at h
  | cons e rest ih =>
    obtain ⟨k0, v0⟩ := e
    by_cases h0 : k0 = k
    · subst h0
      simp only [GoMap.get?, if_true, Option.some.injEq] at h
      simp [GoMap.set, h]
    · simp only [GoMap.get?, if_neg h0] at h
      simp [GoMap.set, h0, ih h]

theorem GoMap.length_le_set {κ ν : Type} [DecidableEq κ] (m : GoMap κ ν) (k : κ) (v : ν) :
    m.length ≤ (GoMap.set m k v).length := by
  induction m with
  | nil => simp [GoMap.set]
  | cons e rest ih =>
    obtain ⟨k0, v0⟩ := e
    by_cases h0 : k0 = k
    · simp [GoMap.set, h0]
    · simpa [GoMap.set, h0] using ih

theorem applyWrite_of_settled (maxEntries f : Nat) (t : GoMap Nat Nat) (k : Nat)
    (h : Settled maxEntries f t k) : applyWrite maxEntries t (k, f) = t := by
  rcases h with h | ⟨h1, h2⟩
  · simp [applyWrite, Put, h, GoMap.set_of_get? t k f h]
  · have : ¬ t.length < maxEntries := by omega
    simp [applyWrite, Put, h1, this]

theorem settled_applyWrite_self (maxEntries f : Nat) (t : GoMap Nat Nat) (k : Nat) :
    Settled maxEntries f (applyWrite maxEntries t (k, f)) k := by
  by_cases h : (GoMap.get? t k).isSome ∨ t.length < maxEntries
  · left
    simp [applyWrite, Put, h, GoMap.get?_set]
  · right
    have h1 : GoMap.get? t k = none := by
      cases hg : GoMap.get? t k with
      | none => rfl
      | some v => exact absurd (Or.inl (by simp [hg])) h
    have h2 : maxEntries ≤ t.length := by
      by_contra hlt
      exact h (Or.inr (by omega))
    simp only [applyWrite, Put, if_neg h, Option.getD_none]
    exact ⟨h1, h2⟩

theorem settled_applyWrite_other (maxEntries f : Nat) (t : GoMap Nat Nat) (k k' : Nat)
    (h : Settled maxEntries f t k) : Settled maxEntries f (applyWrite maxEntries t (k', f)) k := by
  by_cases hk : k' = k
  · subst hk
    exact settled_applyWrite_self maxEntries f t k'
  · by_cases hput : (GoMap.get? t k').isSome ∨ t.length < maxEntries
    · have heq : applyWrite maxEntries t (k', f) = GoMap.set t k' f := by
        simp [applyWrite, Put, hput]
      rw [heq]
      rcases h with h | ⟨h1, h2⟩
      · left
        rw [GoMap.get?_set, if_neg hk, h]
      · right
        refine ⟨by rw [GoMap.get?_set, if_neg hk, h1], ?_⟩
        exact Nat.le_trans h2 (GoMap.length_le_set t k' f)
    · have heq : applyWrite maxEntries t (k', f) = t := by
        simp only [applyWrite, Put, if_neg hput, Option.getD_none]
      rw [heq]
      exact h

theorem settled_foldl (maxEntries f : Nat) (ws : List (Nat × Nat)) (hws : ∀ w ∈ ws, w.2 = f)
    (t : GoMap Nat Nat) (k : Nat)
    (h : Settled maxEntries f t k ∨ ∃ w ∈ ws, w.1 = k) :
    Settled maxEntries f (ws.foldl (applyWrite maxEntries) t) k := by
  induction ws generalizing t with
  | nil =>
    rcases h with h | ⟨w, hw, -⟩
    · exact h
    · cases hw
  | cons w ws ih =>
    have hw2 : w = (w.1, f) := by
      rw [← hws w (List.mem_cons_self _ _)]
    have hws2 : ∀ x ∈ ws, x.2 = f := fun x hx => hws x (List.mem_cons_of_mem _ hx)
    rw [List.foldl_cons]
    apply ih hws2
    rcases h with h | ⟨x, hx, hxk⟩
    · left
      rw [hw2]
      exact settled_applyWrite_other maxEntries f t k w.1 h
    · rcases List.mem_cons.1 hx with rfl | hx
      · left
        rw [hw2, ← hxk]
        exact settled_applyWrite_self maxEntries f t x.1
      · exact Or.inr ⟨x, hx, hxk⟩

theorem foldl_applyWrite_fixed (maxEntries f : Nat) (ws : List (Nat × Nat))
    (hws : ∀ w ∈ ws, w.2 = f) (t : GoMap Nat Nat)
    (h : ∀ w ∈ ws, Settled maxEntries f t w.1) :
    ws.foldl (applyWrite maxEntries) t = t := by
  induction ws with
  | nil => rfl
  | cons w ws ih =>
    have hw2 : w = (w.1, f) := by
      rw [← hws w (List.mem_cons_self _ _)]
    rw [List.foldl_cons, hw2, applyWrite_of_settled maxEntries f t w.1 (h w (List.mem_cons_self _ _))]
    exact ih (fun x hx => hws x (List.mem_cons_of_mem _ hx))
      (fun x hx => h x (List.mem_cons_of_mem _ hx))

theorem foldl_applyWrite_twice (maxEntries f : Nat) (ws : List (Nat × Nat))
    (hws : ∀ w ∈ ws, w.2 = f) (t : GoMap Nat Nat) :
    ws.foldl (applyWrite maxEntries) (ws.foldl (applyWrite maxEntries) t) =
      ws.foldl (applyWrite maxEntries) t :=
  foldl_applyWrite_fixed maxEntries f ws hws _
    (fun w hw => settled_foldl maxEntries f ws hws t w.1 (Or.inr ⟨w, hw, rfl⟩))

theorem cycleWrite_flag (parseIPv6 : String → Option (List Nat)) (blockExternal : Bool)
    (pods : List Pod) :
    ∀ w ∈ pods.filterMap (cycleWrite parseIPv6 blockExternal),
      w.2 = if blockExternal then 1 else 0 := by
  intro w hw
  obtain ⟨p, -, hp⟩ := List.mem_filterMap.1 hw
  unfold cycleWrite at hp
  split at hp
  · cases hp
  · cases hb : (ParseIP parseIPv6 p.PodIP).bind To4 with
    | none => simp [hb] at hp
    | some v =>
      simp only [hb, Option.map_some', Option.some.injEq] at hp
      rw [← hp]

/-- C7: running `updateMonitoredPods` twice in a row on the same query result and the same
environment publishes the same map both times, attempts the same sequence of table writes
both times, and leaves the enforcement table after the second run equal to the table after
the first, whatever the table held before and whatever its capacity. -/
theorem updateMonitoredPods_idempotent (parseIPv6 : String → Option (List Nat))
    (maxEntries : Nat) (getenv : String → String) (listResult : Except String (List Pod))
    (st : SyncState) :
    (updateMonitoredPods parseIPv6 maxEntries getenv listResult
        (updateMonitoredPods parseIPv6 maxEntries getenv listResult st).1).1.monitoredPods =
      (updateMonitoredPods parseIPv6 maxEntries getenv listResult st).1.monitoredPods ∧
    (updateMonitoredPods parseIPv6 maxEntries getenv listResult
        (updateMonitoredPods parseIPv6 maxEntries getenv listResult st).1).2 =
      (updateMonitoredPods parseIPv6 maxEntries getenv listResult st).2 ∧
    (updateMonitoredPods parseIPv6 maxEntries getenv listResult
        (updateMonitoredPods parseIPv6 maxEntries getenv listResult st).1).1.blockedPods =
      (updateMonitoredPods parseIPv6 maxEntries getenv listResult st).1.blockedPods := by
  cases listResult with
  | error e => simp [updateMonitoredPods]
  | ok pods =>
    simp only [updateMonitoredPods_ok]
    refine ⟨trivial, trivial, ?_⟩
    exact foldl_applyWrite_twice maxEntries _ _ (cycleWrite_flag parseIPv6 _ pods) st.blockedPods

/-! ## Pods whose address is not IPv4 -/

theorem cycleWrite_unparsed (parseIPv6 : String → Option (List Nat)) (blockExternal : Bool)
    (p : Pod) (hparse : (ParseIP parseIPv6 p.PodIP).bind To4 = none) :
    cycleWrite parseIPv6 blockExternal p = none := by
  unfold cycleWrite
  split
  · rfl
  · rw [hparse]
    rfl

/-- C10 (as amended): a Running pod with a non-empty address that does not parse as IPv4
still contributes its address as a key of the published map, bound to the name of the last
Running pod of the list that carries this address (the pod's own name when no later Running
pod carries it), and no table write is attempted for it: the writes and the table are those
of the cycle over the list without this pod. -/
theorem updateMonitoredPods_unparsed_pod (parseIPv6 : String → Option (List Nat))
    (maxEntries : Nat) (getenv : String → String) (pre post : List Pod) (p : Pod)
    (st : SyncState) (hrun : p.Phase = PodRunning) (hip : p.PodIP ≠ "")
    (hparse : (ParseIP parseIPv6 p.PodIP).bind To4 = none) :
    (∃ q, ((pre ++ p :: post).filter
          (fun r => decide (r.Phase = PodRunning ∧ r.PodIP ≠ "" ∧ r.PodIP = p.PodIP))).getLast?
          = some q ∧
        GoMap.get? (updateMonitoredPods parseIPv6 maxEntries getenv
          (.ok (pre ++ p :: post)) st).1.monitoredPods p.PodIP = some q.Name) ∧
      ((∀ r ∈ post, r.Phase = PodRunning → r.PodIP ≠ p.PodIP) →
        GoMap.get? (updateMonitoredPods parseIPv6 maxEntries getenv
          (.ok (pre ++ p :: post)) st).1.monitoredPods p.PodIP = some p.Name) ∧
      (updateMonitoredPods parseIPv6 maxEntries getenv (.ok (pre ++ p :: post)) st).2 =
        (updateMonitoredPods parseIPv6 maxEntries getenv (.ok (pre ++ post)) st).2 ∧
      (updateMonitoredPods parseIPv6 maxEntries getenv (.ok (pre ++ p :: post)) st).1.blockedPods
        = (updateMonitoredPods parseIPv6 maxEntries getenv (.ok (pre ++ post)) st).1.blockedPods
    := by
  have hp : decide (p.Phase = PodRunning ∧ p.PodIP ≠ "" ∧ p.PodIP = p.PodIP) = true := by
    simp [hrun, hip]
  have hw := cycleWrite_unparsed parseIPv6 (decide (getenv "BLOCK_EXTERNAL" = "true")) p hparse
  refine ⟨?_, ?_, ?_, ?_⟩
  · rw [monitoredPods_get?]
    cases hl : ((pre ++ p :: post).filter
        (fun r => decide (r.Phase = PodRunning ∧ r.PodIP ≠ "" ∧ r.PodIP = p.PodIP))).getLast? with
    | none =>
      rw [List.getLast?_eq_none_iff, List.filter_eq_nil_iff] at hl
      exact absurd hp (hl p (by simp))
    | some q => exact ⟨q, rfl, rfl⟩
  · intro hpost
    have hcons : (p :: post).filter
        (fun r => decide (r.Phase = PodRunning ∧ r.PodIP ≠ "" ∧ r.PodIP = p.PodIP)) =
        p :: post.filter
          (fun r => decide (r.Phase = PodRunning ∧ r.PodIP ≠ "" ∧ r.PodIP = p.PodIP)) :=
      List.filter_cons_of_pos hp
    rw [monitoredPods_get?, List.filter_append, hcons]
    have hnil : post.filter
        (fun r => decide (r.Phase = PodRunning ∧ r.PodIP ≠ "" ∧ r.PodIP = p.PodIP)) = [] := by
      rw [List.filter_eq_nil_iff]
      intro r hr hdec
      simp only [decide_eq_true_eq] at hdec
      exact hpost r hr hdec.1 hdec.2.2
    rw [hnil, ← List.concat_eq_append, List.concat_eq_append, List.getLast?_append]
    rfl
  · simp only [updateMonitoredPods_ok, List.filterMap_append, List.filterMap_cons, hw]
  · simp only [updateMonitoredPods_ok, List.filterMap_append, List.filterMap_cons, hw]

/-- C10 (witness): the Running pod `v6` at `fd00::1` in front of the Running pod `web-1` at
`10.0.0.5`. -/
theorem updateMonitoredPods_unparsed_pod_witness :
    GoMap.get? (updateMonitoredPods parseIPv6Example 1024 blockingEnv
        (.ok ([] ++ ⟨"v6", "Running", "fd00::1"⟩ :: [⟨"web-1", "Running", "10.0.0.5"⟩]))
        ⟨[], []⟩).1.monitoredPods "fd00::1" = some "v6" ∧
      (updateMonitoredPods parseIPv6Example 1024 blockingEnv
        (.ok ([] ++ ⟨"v6", "Running", "fd00::1"⟩ :: [⟨"web-1", "Running", "10.0.0.5"⟩]))
        ⟨[], []⟩).2 = [(83886090, 1)] := by
  have h := updateMonitoredPods_unparsed_pod parseIPv6Example 1024 blockingEnv []
    [⟨"web-1", "Running", "10.0.0.5"⟩] ⟨"v6", "Running", "fd00::1"⟩ ⟨[], []⟩
    (by decide) (by decide) (by decide)
  refine ⟨h.2.1 (by decide), ?_⟩
  rw [h.2.2.1]
  decide

/-- C10 (counterexample): two Running pods `a` and `b` share the address `fd00::1`, which is
not IPv4. The published map binds the address to `b`, so the pair of pod `a` is not in it. -/
theorem unparsed_pod_pair_not_always_published :
    ¬ ∀ (parseIPv6 : String → Option (List Nat)) (maxEntries : Nat) (getenv : String → String)
        (pods : List Pod) (st : SyncState) (p : Pod), p ∈ pods → p.Phase = PodRunning →
        p.PodIP ≠ "" → (ParseIP parseIPv6 p.PodIP).bind To4 = none →
        GoMap.get? (updateMonitoredPods parseIPv6 maxEntries getenv (.ok pods)
          st).1.monitoredPods p.PodIP = some p.Name := by
  intro h
  have h1 := h parseIPv6Example 1024 blockingEnv
    [⟨"a", "Running", "fd00::1"⟩, ⟨"b", "Running", "fd00::1"⟩] ⟨[], []⟩
    ⟨"a", "Running", "fd00::1"⟩ (by decide) (by decide) (by decide) (by decide)
  revert h1
  decide

/-! ## The flow event pipeline -/

theorem intToIP_eq_dottedQuad (ip : Nat) :
    intToIP ip =
      dottedQuad (ip % 256) ((ip >>> 8) % 256) ((ip >>> 16) % 256) ((ip >>> 24) % 256) := rfl

theorem parseIPv4_intToIP (ip : Nat) :
    parseIPv4 (intToIP ip) =
      some [ip % 256, (ip >>> 8) % 256, (ip >>> 16) % 256, (ip >>> 24) % 256] := by
  rw [intToIP_eq_dottedQuad]
  exact parseIPv4_dottedQuad _ _ _ _ (Nat.mod_lt _ (by decide)) (Nat.mod_lt _ (by decide))
    (Nat.mod_lt _ (by decide)) (Nat.mod_lt _ (by decide))

theorem intToIP_injective (A B : Nat) (hA : A < 2 ^ 32) (hB : B < 2 ^ 32)
    (h : intToIP A = intToIP B) : A = B := by
  have h1 := parseIPv4_intToIP A
  rw [h, parseIPv4_intToIP B] at h1
  simp only [Option.some.injEq, List.cons.injEq, and_true, Nat.shiftRight_eq_div_pow] at h1
  obtain ⟨h0, h8, h16, h24⟩ := h1
  omega

theorem intToIP_littleEndianUint32 (a b c d : Nat) (ha : a < 256) (hb : b < 256)
    (hc : c < 256) (hd : d < 256) (rest : List Nat) :
    intToIP (littleEndianUint32 (a :: b :: c :: d :: rest)) = dottedQuad a b c d := by
  rw [littleEndianUint32_eq a b c d ha hb hc hd, intToIP_eq_dottedQuad]
  simp only [Nat.shiftRight_eq_div_pow]
  have e0 : (a + b * 2 ^ 8 + c * 2 ^ 16 + d * 2 ^ 24) % 256 = a := by omega
  have e1 : (a + b * 2 ^ 8 + c * 2 ^ 16 + d * 2 ^ 24) / 2 ^ 8 % 256 = b := by omega
  have e2 : (a + b * 2 ^ 8 + c * 2 ^ 16 + d * 2 ^ 24) / 2 ^ 16 % 256 = c := by omega
  have e3 : (a + b * 2 ^ 8 + c * 2 ^ 16 + d * 2 ^ 24) / 2 ^ 24 % 256 = d := by omega
  rw [e0, e1, e2, e3]

/-- C3: when a sample decodes and the text `intToIP` gives for its source address is not a
key of the current map, the event loop logs nothing for it and goes on with the rest of the
stream. -/
theorem eventLoop_unmonitored (rawSample : List Nat) (event : NetworkEvent)
    (monitoredPods : GoMap String String) (rest : List (ReadResult × GoMap String String))
    (hdec : decodeEvent rawSample = some event)
    (hmiss : GoMap.get? monitoredPods (intToIP event.Saddr) = none) :
    eventLoop ((ReadResult.record rawSample, monitoredPods) :: rest) = eventLoop rest := by
  rw [eventLoop, hdec]
  simp [handleEvent, hmiss]

/-- C3 (witness): a TCP flow from `10.0.0.9` while only `10.0.0.5` is monitored, followed by a
read error: the log holds the read error alone. -/
theorem eventLoop_unmonitored_witness :
    eventLoop [(ReadResult.record
        [10, 0, 0, 9, 8, 8, 8, 8, 1, 0, 2, 0, 6, 1, 1, 1, 10, 0, 0, 9],
        [("10.0.0.5", "web-1")]), (ReadResult.failed "x", [])] =
      eventLoop [(ReadResult.failed "x", [])] :=
  eventLoop_unmonitored [10, 0, 0, 9, 8, 8, 8, 8, 1, 0, 2, 0, 6, 1, 1, 1, 10, 0, 0, 9]
    { Saddr := 150994954, Daddr := 134744072, Sport := 1, Dport := 2, Protocol := 6,
      Blocked := 1, FoundInMap := 1, BlockFlagValue := 1, SaddrLookup := 150994954 }
    [("10.0.0.5", "web-1")] [(ReadResult.failed "x", [])] (by decide) (by decide)

/-- C4 (as amended): when a sample decodes and the text `intToIP` gives for its source
address is a key of the current map, the event loop logs exactly one observation for it and
goes on; the observation carries the pod name the map holds for that address, and its action
is `BLOCKED` when the blocked byte equals 1 and `ALLOWED` for every other value. -/
theorem eventLoop_monitored (rawSample : List Nat) (event : NetworkEvent)
    (monitoredPods : GoMap String String) (podName : String)
    (rest : List (ReadResult × GoMap String String))
    (hdec : decodeEvent rawSample = some event)
    (hhit : GoMap.get? monitoredPods (intToIP event.Saddr) = some podName) :
    ∃ o : Observation,
      eventLoop ((ReadResult.record rawSample, monitoredPods) :: rest) =
        LogEntry.observation o :: eventLoop rest ∧
      o.podName = podName ∧ o.srcIP = intToIP event.Saddr ∧
      o.action = if event.Blocked = 1 then "BLOCKED" else "ALLOWED" := by
  rw [eventLoop, hdec]
  simp only [handleEvent, hhit]
  exact ⟨_, rfl, rfl, rfl, rfl⟩

/-- C4 (witness): the scenario of the specification, a blocked TCP flow from `10.0.0.5`
while the map binds `10.0.0.5` to `web-1`. -/
theorem eventLoop_monitored_witness :
    ∃ o : Observation,
      eventLoop [(ReadResult.record
          [10, 0, 0, 5, 8, 8, 8, 8, 1, 0, 2, 0, 6, 1, 1, 1, 10, 0, 0, 5],
          [("10.0.0.5", "web-1")])] = LogEntry.observation o :: eventLoop [] ∧
      o.podName = "web-1" ∧
      o.srcIP = intToIP 83886090 ∧
      o.action = if 1 = 1 then "BLOCKED" else "ALLOWED" :=
  eventLoop_monitored [10, 0, 0, 5, 8, 8, 8, 8, 1, 0, 2, 0, 6, 1, 1, 1, 10, 0, 0, 5]
    { Saddr := 83886090, Daddr := 134744072, Sport := 1, Dport := 2, Protocol := 6,
      Blocked := 1, FoundInMap := 1, BlockFlagValue := 1, SaddrLookup := 83886090 }
    [("10.0.0.5", "web-1")] "web-1" [] (by decide) (by decide)

/-- C4 (counterexample): a sample from the monitored address `10.0.0.5` whose blocked byte
is 2. The byte is non-zero, yet the one observation logged has action `ALLOWED`. -/
theorem blocked_byte_two_logged_as_allowed :
    decodeEvent [10, 0, 0, 5, 8, 8, 8, 8, 1, 0, 2, 0, 6, 2, 1, 1, 10, 0, 0, 5] =
        some
          { Saddr := 83886090, Daddr := 134744072, Sport := 1, Dport := 2, Protocol := 6,
            Blocked := 2, FoundInMap := 1, BlockFlagValue := 1, SaddrLookup := 83886090 } ∧
      (eventLoop [(ReadResult.record
          [10, 0, 0, 5, 8, 8, 8, 8, 1, 0, 2, 0, 6, 2, 1, 1, 10, 0, 0, 5],
          [("10.0.0.5", "web-1")])]).map LogEntry.render =
        ["[web-1] ALLOWED: 10.0.0.5 -> 8.8.8.8  [TCP] 1 -> 2 " ++
          "[map_lookup=true, flag=1, lookup_ip=0x0500000a]"] := by
  constructor <;> decide

/-- C5: for address bytes `a b c d`, the table key `binary.LittleEndian.Uint32` makes of them
is printed by `intToIP` as the dotted quad `a.b.c.d`; and a sample whose first four bytes are
`a b c d` decodes to an event whose source address is that key and prints the same way. -/
theorem intToIP_roundtrip (a b c d : Nat) (ha : a < 256) (hb : b < 256) (hc : c < 256)
    (hd : d < 256) :
    intToIP (littleEndianUint32 [a, b, c, d]) = dottedQuad a b c d ∧
      ∀ tail : List Nat, 16 ≤ tail.length →
        ∃ event, decodeEvent (a :: b :: c :: d :: tail) = some event ∧
          event.Saddr = littleEndianUint32 [a, b, c, d] ∧
          intToIP event.Saddr = dottedQuad a b c d := by
  refine ⟨intToIP_littleEndianUint32 a b c d ha hb hc hd [], ?_⟩
  intro tail htail
  have hlen : ¬ (a :: b :: c :: d :: tail).length < 20 := by
    simp only [List.length_cons]
    omega
  refine ⟨_, by rw [decodeEvent, if_neg hlen], ?_, ?_⟩
  · simp only
    rw [littleEndianUint32_eq a b c d ha hb hc hd, littleEndianUint32_eq a b c d ha hb hc hd]
  · exact intToIP_littleEndianUint32 a b c d ha hb hc hd tail

/-- C5 (witness): the address `10.0.0.5`. -/
theorem intToIP_roundtrip_witness :
    intToIP (littleEndianUint32 [10, 0, 0, 5]) = dottedQuad 10 0 0 5 ∧
      dottedQuad 10 0 0 5 = "10.0.0.5" :=
  ⟨(intToIP_roundtrip 10 0 0 5 (by decide) (by decide) (by decide) (by decide)).1, by decide⟩

/-- C6: two different 32-bit addresses are printed differently by `intToIP`; so in any map
the lookup for the first uses another key than the second, and whatever is stored under the
key of the second has no effect on what the lookup for the first returns. -/
theorem intToIP_no_collision (A B : Nat) (hA : A < 2 ^ 32) (hB : B < 2 ^ 32) (hne : A ≠ B) :
    intToIP A ≠ intToIP B ∧
      ∀ (monitoredPods : GoMap String String) (name : String),
        GoMap.get? (GoMap.set monitoredPods (intToIP B) name) (intToIP A) =
          GoMap.get? monitoredPods (intToIP A) := by
  have h : intToIP A ≠ intToIP B := fun h => hne (intToIP_injective A B hA hB h)
  refine ⟨h, fun m name => ?_⟩
  rw [GoMap.get?_set, if_neg (fun e => h e.symm)]

/-- C6 (witness): the addresses `10.0.0.5` and `5.0.0.10`. -/
theorem intToIP_no_collision_witness :
    intToIP 83886090 ≠ intToIP 167772165 ∧
      GoMap.get? (GoMap.set [("10.0.0.5", "web-1")] (intToIP 167772165) "other")
        (intToIP 83886090) = GoMap.get? [("10.0.0.5", "web-1")] (intToIP 83886090) :=
  ⟨(intToIP_no_collision 83886090 167772165 (by decide) (by decide) (by decide)).1,
    (intToIP_no_collision 83886090 167772165 (by decide) (by decide) (by decide)).2 _ _⟩

/-! ## The pod selector -/

theorem indexOf_eq_none (sep : Char) (s : List Char) : indexOf sep s = none ↔ sep ∉ s := by
  induction s with
  | nil => simp [indexOf]
  | cons c rest ih =>
    by_cases h : c = sep
    · simp [indexOf, h]
    · have h2 : ¬ sep = c := fun e => h e.symm
      simp [indexOf, h, h2, ih]

theorem indexOf_eq_some (sep : Char) (s : List Char) (m : Nat) (h : indexOf sep s = some m) :
    s.take m = s.takeWhile (fun c => c != sep) ∧
      s.drop (m + 1) = (s.dropWhile (fun c => c != sep)).drop 1 ∧
      s = s.take m ++ sep :: s.drop (m + 1) ∧ sep ∉ s.take m := by
  induction s generalizing m with
  | nil => simp [indexOf] at h
  | cons c rest ih =>
    by_cases hc : c = sep
    · subst hc
      simp only [indexOf, if_true, Option.some.injEq] at h
      subst h
      simp [List.takeWhile, List.dropWhile]
    · rw [indexOf, if_neg hc] at h
      cases hi : indexOf sep rest with
      | none => simp [hi] at h
      | some k =>
        simp only [hi, Option.map_some', Option.some.injEq] at h
        subst h
        obtain ⟨h1, h2, h3, h4⟩ := ih k hi
        have hne : (c != sep) = true := by simpa using hc
        have hsc : ¬ sep = c := fun e => hc e.symm
        refine ⟨?_, ?_, ?_, ?_⟩
        · simp [List.takeWhile, hne, h1]
        · simp [List.dropWhile, hne, h2]
        · simp only [List.take_succ_cons, List.drop_succ_cons, List.cons_append]
          rw [← h3]
        · simp [List.take_succ_cons, hsc, h4]

theorem genSplitLoop_ne_nil (sep : Char) (n : Nat) (s : List Char) :
    genSplitLoop sep n s ≠ [] := by
  cases n with
  | zero => simp [genSplitLoop]
  | succ n =>
    rw [genSplitLoop]
    cases indexOf sep s <;> simp

theorem intercalate_cons_of_ne_nil (sep x : List Char) (ys : List (List Char)) (h : ys ≠ []) :
    sep.intercalate (x :: ys) = x ++ sep ++ sep.intercalate ys := by
  cases ys with
  | nil => exact absurd rfl h
  | cons y ys => simp [List.intercalate, List.intersperse]

theorem genSplitLoop_intercalate (sep : Char) (n : Nat) (s : List Char) :
    [sep].intercalate (genSplitLoop sep n s) = s := by
  induction n generalizing s with
  | zero => simp [genSplitLoop, List.intercalate]
  | succ n ih =>
    rw [genSplitLoop]
    cases hi : indexOf sep s with
    | none => simp [List.intercalate]
    | some m =>
      simp only
      rw [intercalate_cons_of_ne_nil _ _ _ (genSplitLoop_ne_nil sep n _), ih]
      have := (indexOf_eq_some sep s m hi).2.2.1
      simpa using this.symm

theorem genSplitLoop_no_sep (sep : Char) (n : Nat) (s : List Char) (h : s.count sep ≤ n) :
    ∀ seg ∈ genSplitLoop sep n s, sep ∉ seg := by
  induction n generalizing s with
  | zero =>
    intro seg hseg
    simp only [genSplitLoop, List.mem_singleton] at hseg
    subst hseg
    have h0 : List.count sep seg = 0 := Nat.le_zero.1 h
    exact List.count_eq_zero.1 h0
  | succ n ih =>
    intro seg hseg
    rw [genSplitLoop] at hseg
    cases hi : indexOf sep s with
    | none =>
      simp only [hi, List.mem_singleton] at hseg
      subst hseg
      exact (indexOf_eq_none sep seg).1 hi
    | some m =>
      simp only [hi, List.mem_cons] at hseg
      obtain ⟨-, -, h3, h4⟩ := indexOf_eq_some sep s m hi
      rcases hseg with rfl | hseg
      · exact h4
      · apply ih (s.drop (m + 1)) _ seg hseg
        have hc : s.count sep = (s.take m).count sep + ((s.drop (m + 1)).count sep + 1) := by
          conv_lhs => rw [h3]
          rw [List.count_append, List.count_cons_self]
        omega

theorem Split_spec (s : List Char) (sep : Char) :
    [sep].intercalate (Split s sep) = s ∧ ∀ seg ∈ Split s sep, sep ∉ seg := by
  refine ⟨genSplitLoop_intercalate sep _ s, genSplitLoop_no_sep sep _ s ?_⟩
  have : s.count sep ≤ s.length := List.count_le_length _ _
  omega

theorem SplitN_two (pair : List Char) (sep : Char) :
    SplitN pair sep 2 =
      if sep ∈ pair then
        [pair.takeWhile (fun c => c != sep), (pair.dropWhile (fun c => c != sep)).drop 1]
      else [pair] := by
  cases pair with
  | nil => simp [SplitN, genSplitLoop]
  | cons c rest =>
    have hb : min 2 ((c :: rest).length + 1) - 1 = 1 := by
      simp only [List.length_cons]
      omega
    rw [SplitN, hb, genSplitLoop]
    cases hi : indexOf sep (c :: rest) with
    | none =>
      rw [if_neg ((indexOf_eq_none sep _).1 hi)]
    | some m =>
      have hmem : sep ∈ c :: rest := by
        by_contra hn
        rw [(indexOf_eq_none sep _).2 hn] at hi
        cases hi
      obtain ⟨h1, h2, -, -⟩ := indexOf_eq_some sep _ m hi
      rw [if_pos hmem]
      simp only [genSplitLoop]
      rw [h1, h2]

theorem selector_step (selector : GoMap String String) (pair : List Char) :
    (match SplitN pair '=' 2 with
      | [k, v] => GoMap.set selector (String.mk k) (String.mk v)
      | _ => selector) =
    match segmentBinding pair with
      | some kv => GoMap.set selector kv.1 kv.2
      | none => selector := by
  rw [SplitN_two, segmentBinding]
  by_cases h : '=' ∈ pair
  · simp only [if_pos h]
  · simp only [if_neg h]

theorem foldl_set_get? {α : Type} (g : α → Option (String × String)) (xs : List α)
    (m0 : GoMap String String) (key : String) :
    GoMap.get? (xs.foldl (fun m x =>
        match g x with
        | some kv => GoMap.set m kv.1 kv.2
        | none => m) m0) key =
      match ((xs.filterMap g).filter (fun kv => decide (kv.1 = key))).getLast? with
      | some kv => some kv.2
      | none => GoMap.get? m0 key := by
  induction xs using List.reverseRecOn with
  | nil => simp
  | append_singleton xs x ih =>
    rw [List.foldl_append, List.filterMap_append]
    simp only [List.foldl_cons, List.foldl_nil]
    cases hg : g x with
    | none =>
      simp only [List.filterMap_cons, hg, List.filterMap_nil, List.append_nil]
      exact ih
    | some kv =>
      have hfm : List.filterMap g [x] = [kv] := by simp [List.filterMap_cons, hg]
      rw [hfm, getLast?_filter_concat]
      simp only [GoMap.get?_set]
      by_cases hk : kv.1 = key
      · simp [hk]
      · simp only [hk, if_false, decide_False, Bool.false_eq_true]
        exact ih

/-- C8: when `POD_SELECTOR` is unset or empty, `getPodSelector` returns the map with the one
pair `monitor -> external`. Otherwise, with the value cut into its comma-separated segments
(the pieces without comma that, joined by commas, give the value back), a key is bound in
the returned map exactly when some segment holding `=` has it as the text before its first
`=`, and then to the text after the first `=` of the last such segment. -/
theorem getPodSelector_spec (getenv : String → String) :
    if getenv "POD_SELECTOR" = "" then getPodSelector getenv = [("monitor", "external")]
    else ∃ segments : List (List Char),
      [','].intercalate segments = (getenv "POD_SELECTOR").toList ∧
      (∀ seg ∈ segments, ',' ∉ seg) ∧
      ∀ key : String, GoMap.get? (getPodSelector getenv) key =
        (((segments.filterMap segmentBinding).filter
          (fun kv => decide (kv.1 = key))).getLast?).map (fun kv => kv.2) := by
  by_cases he : getenv "POD_SELECTOR" = ""
  · rw [if_pos he]
    simp [getPodSelector, he, GoMap.set]
  · rw [if_neg he]
    obtain ⟨h1, h2⟩ := Split_spec (getenv "POD_SELECTOR").toList ','
    refine ⟨Split (getenv "POD_SELECTOR").toList ',', h1, h2, fun key => ?_⟩
    simp only [getPodSelector, if_neg he, selector_step]
    rw [foldl_set_get?]
    cases (((Split (getenv "POD_SELECTOR").toList ',').filterMap segmentBinding).filter
      (fun kv => decide (kv.1 = key))).getLast? <;> simp [GoMap.get?]

/-! ## Start-up and attachment -/

theorem attachLoop_eq (attachTCX : NetLink → Except String Nat) (links : List NetLink)
    (tcLinks : List Nat) (attached : Nat) :
    attachLoop attachTCX links (tcLinks, attached) =
      (tcLinks ++ vethHandles attachTCX links,
        attached + (links.filter (vethAttaches attachTCX)).length) := by
  induction links generalizing tcLinks attached with
  | nil => simp [attachLoop, vethHandles]
  | cons iface rest ih =>
    by_cases hv : iface.LinkType = "veth"
    · cases ha : attachTCX iface with
      | error e =>
        rw [attachLoop, if_neg (by simpa using hv)]
        simp only [ha]
        rw [ih]
        simp [vethHandles, vethAttaches, hv, ha, List.filter_cons, Except.toOption,
          Except.toBool]
      | ok l =>
        rw [attachLoop, if_neg (by simpa using hv)]
        simp only [ha]
        rw [ih]
        simp [vethHandles, vethAttaches, hv, ha, List.filter_cons, Except.toOption,
          Except.toBool]
        omega
    · rw [attachLoop, if_pos hv, ih]
      simp [vethHandles, vethAttaches, hv, List.filter_cons]

theorem length_vethHandles (attachTCX : NetLink → Except String Nat) (links : List NetLink) :
    (vethHandles attachTCX links).length = (links.filter (vethAttaches attachTCX)).length := by
  induction links with
  | nil => simp [vethHandles]
  | cons iface rest ih =>
    by_cases hv : iface.LinkType = "veth"
    · cases ha : attachTCX iface <;>
        simp_all [vethHandles, vethAttaches, List.filter_cons, Except.toOption, Except.toBool]
    · simp_all [vethHandles, vethAttaches, List.filter_cons]

/-- C9 (as amended): once memlock removal, object loading and link listing have succeeded,
start-up stops with the no-veth fatal error if and only if no interface of type `veth`
attaches successfully, and it stops before the pod monitor is started if and only if that
is so or the in-cluster configuration or the client construction fails. A failed attachment
is skipped: the loop keeps exactly the handles of the `veth` interfaces whose attachment
succeeded, in order, and counts as many; when start-up goes through, these are the handles
kept and the count reported. -/
theorem startup_after_attachment (calls : StartupCalls) (links : List NetLink)
    (hmem : calls.removeMemlock = .ok ()) (hload : calls.loadObjects = .ok ())
    (hlist : calls.linkList = .ok links) :
    attachLoop calls.attachTCX links ([], 0) =
        (vethHandles calls.attachTCX links,
          (links.filter (vethAttaches calls.attachTCX)).length) ∧
      (vethHandles calls.attachTCX links).length =
        (links.filter (vethAttaches calls.attachTCX)).length ∧
      (startup calls = .fatal .noVethAttached ↔
        ∀ iface ∈ links, vethAttaches calls.attachTCX iface = false) ∧
      ((∃ e, startup calls = .fatal e) ↔
        ((∀ iface ∈ links, vethAttaches calls.attachTCX iface = false) ∨
          calls.inClusterConfig.toBool = false ∨ calls.newForConfig.toBool = false)) ∧
      (startup calls = .monitorStarted (vethHandles calls.attachTCX links)
          (links.filter (vethAttaches calls.attachTCX)).length ↔
        ((∃ iface ∈ links, vethAttaches calls.attachTCX iface = true) ∧
          calls.inClusterConfig.toBool = true ∧ calls.newForConfig.toBool = true)) := by
  have hloop := attachLoop_eq calls.attachTCX links [] 0
  rw [List.nil_append, Nat.zero_add] at hloop
  have hzero : (links.filter (vethAttaches calls.attachTCX)).length = 0 ↔
      ∀ iface ∈ links, vethAttaches calls.attachTCX iface = false := by
    rw [List.length_eq_zero, List.filter_eq_nil_iff]
    simp
  have hex : (∃ iface ∈ links, vethAttaches calls.attachTCX iface = true) ↔
      ¬ ∀ iface ∈ links, vethAttaches calls.attachTCX iface = false := by
    simp
  refine ⟨hloop, length_vethHandles _ _, ?_, ?_, ?_⟩
  · rw [← hzero]
    simp only [startup, hmem, hload, hlist, hloop]
    by_cases h0 : (links.filter (vethAttaches calls.attachTCX)).length = 0
    · simp [h0]
    · cases hc : calls.inClusterConfig <;> cases hn : calls.newForConfig <;> simp [h0]
  · rw [← hzero]
    simp only [startup, hmem, hload, hlist, hloop]
    by_cases h0 : (links.filter (vethAttaches calls.attachTCX)).length = 0
    · simp [h0]
    · cases hc : calls.inClusterConfig <;> cases hn : calls.newForConfig <;>
        simp [h0, Except.toBool]
  · rw [hex, ← hzero]
    simp only [startup, hmem, hload, hlist, hloop]
    by_cases h0 : (links.filter (vethAttaches calls.attachTCX)).length = 0
    · simp [h0]
    · cases hc : calls.inClusterConfig <;> cases hn : calls.newForConfig <;>
        simp [h0, Except.toBool]

/-- C9 (witness): of the interfaces `veth0`, `br0`, `veth1` the attachment to `veth0` fails:
the loop keeps the one handle of `veth1` and counts 1, and the pod monitor is started. -/
theorem startup_after_attachment_witness :
    attachLoop oneAttachFailsCalls.attachTCX
        [⟨"veth", "veth0", 3⟩, ⟨"bridge", "br0", 4⟩, ⟨"veth", "veth1", 5⟩] ([], 0) =
      (vethHandles oneAttachFailsCalls.attachTCX
          [⟨"veth", "veth0", 3⟩, ⟨"bridge", "br0", 4⟩, ⟨"veth", "veth1", 5⟩],
        ([⟨"veth", "veth0", 3⟩, ⟨"bridge", "br0", 4⟩, ⟨"veth", "veth1", 5⟩].filter
          (vethAttaches oneAttachFailsCalls.attachTCX)).length) ∧
      startup oneAttachFailsCalls = .monitorStarted [5] 1 :=
  ⟨(startup_after_attachment oneAttachFailsCalls
      [⟨"veth", "veth0", 3⟩, ⟨"bridge", "br0", 4⟩, ⟨"veth", "veth1", 5⟩] rfl rfl rfl).1,
    by decide⟩

/-- C9 (counterexample): the one interface `veth0` attaches, and `rest.InClusterConfig`
fails. An interface of type `veth` has attached successfully, yet start-up ends in
`log.Fatal` before the pod monitor is started. -/
theorem startup_fatal_though_veth_attached :
    outsideClusterCalls.linkList = .ok [⟨"veth", "veth0", 3⟩] ∧
      attachLoop outsideClusterCalls.attachTCX [⟨"veth", "veth0", 3⟩] ([], 0) = ([3], 1) ∧
      startup outsideClusterCalls = .fatal (.inClusterConfig "not in cluster") := by
  refine ⟨rfl, by decide, by decide⟩

/-! ## Scenarios of the specification, evaluated -/

/-- The scenario of the specification: `BLOCK_EXTERNAL=true` and one Running pod `web-1` at
`10.0.0.5`. After one cycle the map binds `10.0.0.5` to `web-1` and the table holds the flag
1 under the key of `10.0.0.5`; a blocked flow from `10.0.0.5` is then logged under `web-1`
as `BLOCKED`. -/
theorem scenario_blocked_pod :
    updateMonitoredPods parseIPv6Example 1024 blockingEnv
        (.ok [⟨"web-1", "Running", "10.0.0.5"⟩]) ⟨[], []⟩ =
      (⟨[("10.0.0.5", "web-1")], [(83886090, 1)]⟩, [(83886090, 1)]) ∧
    (eventLoop [(ReadResult.record
        [10, 0, 0, 5, 8, 8, 8, 8, 1, 0, 2, 0, 6, 1, 1, 1, 10, 0, 0, 5],
        [("10.0.0.5", "web-1")])]).map LogEntry.render =
      ["[web-1] BLOCKED: 10.0.0.5 -> 8.8.8.8  [TCP] 1 -> 2 " ++
        "[map_lookup=true, flag=1, lookup_ip=0x0500000a]"] := by
  constructor <;> decide

/-- A selector value with a repeated key, a value holding `=`, an empty segment, a segment
without `=` and an empty key. -/
theorem scenario_selector :
    getPodSelector (fun name => if name = "POD_SELECTOR" then "tier=edge,a=b=c,,x,=y,tier=core"
      else "") = [("tier", "core"), ("a", "b=c"), ("", "y")] := by
  decide

/-- A table with room for one entry: the write for the second pod fails, the cycle goes on,
and both pods are in the published map. -/
theorem scenario_full_table :
    updateMonitoredPods parseIPv6Example 1 blockingEnv
        (.ok [⟨"web-1", "Running", "10.0.0.5"⟩, ⟨"web-2", "Running", "10.0.0.6"⟩]) ⟨[], []⟩ =
      (⟨[("10.0.0.5", "web-1"), ("10.0.0.6", "web-2")], [(83886090, 1)]⟩,
        [(83886090, 1), (100663306, 1)]) := by
  decide

end PodNetworkAccess
